import Mathlib

/-!
Verification of the platform registry and lazy loader implemented in
`src/lib/platformTools.js`.

The JavaScript module keeps a module-level mutable object
`registeredPlatforms` (written only by `enablePlatforms`), resolves a
platform package with `require`, queues missing packages with the package
acquirer (`packageTools.queuePackageInstallation`) and flushes the queue
once per batch (`packageTools.installQueuedPackages`).

Embedding choices:
* A registry is an association list of platform id to `PlatformInfo`;
  JavaScript object key insertion order is the list order and lookup takes
  the first matching key.  The JS guard `platformInfo.packageName` is falsy
  both for `undefined` and for the empty string, so a missing package name
  is modelled as `""`.
* The `require` primitive is abstracted by a `ModuleEnv`: `resolvePre`
  is `require` before the queued installations are flushed, `resolvePost`
  is `require` after the flush completed.  A thrown error is represented by
  its `code` string; the code `"MODULE_NOT_FOUND"` is the distinguished
  missing-module error.
* Side effects towards the package acquirer and the temporal shape of a
  batch are recorded as a list of `Event`s.
* Promises are settled values: a task is an `Except` value, `Q.all` is
  `qAll` (first rejection wins), and `Q.allSettled` corresponds to the
  task list itself, every element of which is a settled outcome.
-/

deriving instance DecidableEq for Except

namespace PlatformTools

/-- The object produced by `new module.Platform(id, platforms)`; `ctorId`
identifies which module's exported `Platform` constructor built it. -/
structure PlatformInstance where
  ctorId : Nat
  id : String
  platforms : List String
deriving DecidableEq

/-- A resolved module; its `Platform` field is the identity of the exported
constructor (`module.Platform` in the source). -/
structure PlatformModule where
  Platform : Nat
deriving DecidableEq

/-- Outcome of one `require(packageName)` call: the module, or a thrown
error carrying its `code` property. -/
inductive RequireOutcome where
  | ok (m : PlatformModule)
  | err (code : String)
deriving DecidableEq

/-- The module system, abstracted: `resolvePre` is `require` before the
queued installations have been flushed, `resolvePost` after. -/
structure ModuleEnv where
  resolvePre : String → RequireOutcome
  resolvePost : String → RequireOutcome

/-- The rejection values produced by `platformTools.js`, one constructor per
`new Error`/`CustomError` site (messages kept symbolically). -/
inductive PlatformError where
  | nameMissing
  | sourceMissing
  | resolutionError (packageName : String) (cause : String)
  | requireFailed (code : String)
  | notRegistered (platformId : String)
  | platformNotFound (platformId : String)
  | platformNotLoaded (platformId : String)
deriving DecidableEq

/-- Observable side effects and temporal milestones of a batch load. -/
inductive Event where
  | queuePackageInstallation (packageName source : String)
  | createTask (packageName : String)
  | rejectNotRegistered (platformId : String)
  | installQueuedPackages
  | settleTask (idx : Nat)
  | batchSettled
deriving DecidableEq

/-- `getPlatformModule(packageName, source)` (lines 18-45): validate the
arguments, attempt `require`; on `MODULE_NOT_FOUND` queue the installation
and re-attempt `require` after the acquirer completes; wrap any other
resolution failure in a `CustomError`.  Returns the acquirer calls made
together with the settled result. -/
def getPlatformModule (env : ModuleEnv) (packageName source : String) :
    List Event × Except PlatformError PlatformModule :=
  if packageName = "" then
    ([], Except.error PlatformError.nameMissing)
  else if source = "" then
    ([], Except.error PlatformError.sourceMissing)
  else
    match env.resolvePre packageName with
    | RequireOutcome.ok m => ([], Except.ok m)
    | RequireOutcome.err code =>
        if code ≠ "MODULE_NOT_FOUND" then
          ([], Except.error (PlatformError.resolutionError packageName code))
        else
          ([Event.queuePackageInstallation packageName source],
            match env.resolvePost packageName with
            | RequireOutcome.ok m => Except.ok m
            | RequireOutcome.err code2 => Except.error (PlatformError.requireFailed code2))

/-- `loadPlatform(packageName, source)` (lines 47-54): resolve the module and
project its `Platform` export. -/
def loadPlatform (env : ModuleEnv) (packageName source : String) :
    List Event × Except PlatformError Nat :=
  let r := getPlatformModule env packageName source
  (r.1, r.2.map (fun m => m.Platform))

/-- One registry entry: `{ packageName, source, instance }`.  A missing or
empty package name is `""`; `inst` is the `instance` property, `none` while
the platform has never been loaded. -/
structure PlatformInfo where
  packageName : String
  source : String
  inst : Option PlatformInstance
deriving DecidableEq

/-- The `registeredPlatforms` object: platform id to entry, in key
insertion order. -/
abbrev Registry := List (String × PlatformInfo)

/-- Property lookup on the registry object (first matching key). -/
def lookupReg : Registry → String → Option PlatformInfo
  | [], _ => none
  | (k, v) :: rest, platformId =>
      if k = platformId then some v else lookupReg rest platformId

/-- The initial value of `registeredPlatforms` (line 12): the empty object,
in place until the first `enablePlatforms` call. -/
def initialRegistry : Registry := []

/-- `enablePlatforms(platformConfig)` (lines 111-124) with an explicit
configuration: wholesale replacement of the registry.  (Reading the default
`platforms.json` when no configuration is given is out of scope.) -/
def enablePlatforms (platformConfig : Registry) : Registry := platformConfig

/-- A task created during the reduce over the batch: either a module-load
task (`loadPlatform` invoked once for a distinct package name) or an
immediately rejected task for an unregistered platform id. -/
inductive TaskSeed where
  | load (packageName source : String)
  | notRegistered (platformId : String)
deriving DecidableEq

/-- Accumulator of the `platforms.reduce` in `loadPlatforms` (lines 60-89):
the `platformMap` object (package name to the platform ids pushed so far)
and the `taskList`. -/
structure BuildState where
  platformMap : List (String × List String)
  taskList : List TaskSeed
deriving DecidableEq

/-- Lookup in `platformMap`. -/
def lookupMap : List (String × List String) → String → Option (List String)
  | [], _ => none
  | (k, v) :: rest, key => if k = key then some v else lookupMap rest key

/-- `platformMap[packageName]` update: create the entry (at the end, as JS
key insertion does) holding `[x]`, or push `x` onto the existing list. -/
def mapAppend : List (String × List String) → String → String → List (String × List String)
  | [], key, x => [(key, [x])]
  | (k, v) :: rest, key, x =>
      if k = key then (k, v ++ [x]) :: rest else (k, v) :: mapAppend rest key x

/-- One iteration of the reduce (lines 60-89): a registered id with a
non-empty package name either joins the existing task for its package or
creates a new load task; otherwise a rejected task is pushed. -/
def buildStep (reg : Registry) (acc : BuildState) (platformId : String) : BuildState :=
  match lookupReg reg platformId with
  | some info =>
      if info.packageName = "" then
        { acc with taskList := acc.taskList ++ [TaskSeed.notRegistered platformId] }
      else
        match lookupMap acc.platformMap info.packageName with
        | some _ =>
            { acc with platformMap := mapAppend acc.platformMap info.packageName platformId }
        | none =>
            { platformMap := mapAppend acc.platformMap info.packageName platformId,
              taskList := acc.taskList ++ [TaskSeed.load info.packageName info.source] }
  | none =>
      { acc with taskList := acc.taskList ++ [TaskSeed.notRegistered platformId] }

/-- The whole reduce of `loadPlatforms` over the batch. -/
def buildSeeds (reg : Registry) (platforms : List String) : BuildState :=
  platforms.foldl (buildStep reg) ⟨[], []⟩

/-- The value a load task resolves to (line 75):
`{ id: packageName, Platform: Platform, platforms: platformList }`. -/
structure TaskResult where
  id : String
  Platform : Nat
  platforms : List String
deriving DecidableEq

/-- Settle one task.  A load task reads `platformList` when it resolves,
that is after the synchronous reduce has completed, so it sees the final
`platformMap` entry for its package. -/
def runSeed (env : ModuleEnv) (finalMap : List (String × List String)) :
    TaskSeed → List Event × Except PlatformError TaskResult
  | TaskSeed.load packageName source =>
      let r := loadPlatform env packageName source
      (r.1, r.2.map (fun p =>
        { id := packageName, Platform := p,
          platforms := (lookupMap finalMap packageName).getD [] }))
  | TaskSeed.notRegistered platformId =>
      ([], Except.error (PlatformError.notRegistered platformId))

/-- The settled outcome of every task of the batch, in task creation order
(what `Q.allSettled(tasks)` observes). -/
def loadPlatformsTasks (env : ModuleEnv) (reg : Registry) (platforms : List String) :
    List (Except PlatformError TaskResult) :=
  let st := buildSeeds reg platforms
  st.taskList.map (fun s => (runSeed env st.platformMap s).2)

/-- `Q.all`: the list of values, or the first rejection. -/
def qAll : List (Except PlatformError TaskResult) → Except PlatformError (List TaskResult)
  | [] => Except.ok []
  | Except.ok r :: rest => (qAll rest).map (fun rs => r :: rs)
  | Except.error e :: _ => Except.error e

/-- `new module.Platform(module.id, module.platforms)` (line 99). -/
def mkInstance (r : TaskResult) : PlatformInstance :=
  { ctorId := r.Platform, id := r.id, platforms := r.platforms }

/-- `loadPlatforms(platforms)` (lines 56-109): build the task list, flush
the installation queue, await all tasks and instantiate one platform per
distinct module.  The function never writes `registeredPlatforms` (the
registry is only assigned in `enablePlatforms`), so the registry is not an
output. -/
def loadPlatforms (env : ModuleEnv) (reg : Registry) (platforms : List String) :
    Except PlatformError (List PlatformInstance) :=
  (qAll (loadPlatformsTasks env reg platforms)).map (fun rs => rs.map mkInstance)

/-- The events emitted while one task is created during the reduce: the
`loadPlatform` call (one module-resolution call) together with whatever it
queued, or the pushing of an already rejected promise. -/
def seedEvents (env : ModuleEnv) : TaskSeed → List Event
  | TaskSeed.load packageName source =>
      Event.createTask packageName :: (loadPlatform env packageName source).1
  | TaskSeed.notRegistered platformId => [Event.rejectNotRegistered platformId]

/-- The temporal trace of one `loadPlatforms` call: the synchronous reduce
creates the tasks (lines 60-89), then `installQueuedPackages` is invoked
(line 92), then the batch waits: every task settles
(`Q.all` / `Q.allSettled`, lines 95-107) before the returned promise
settles. -/
def loadPlatformsTrace (env : ModuleEnv) (reg : Registry) (platforms : List String) :
    List Event :=
  let st := buildSeeds reg platforms
  (st.taskList.map (seedEvents env)).flatten
    ++ [Event.installQueuedPackages]
    ++ (List.range st.taskList.length).map Event.settleTask
    ++ [Event.batchSettled]

/-- `getAllPlatforms()` (lines 126-131): map every registered key to its
entry's `instance` property, whether or not the platform was loaded. -/
def getAllPlatforms (reg : Registry) : List (Option PlatformInstance) :=
  (reg.map (fun kv => kv.1)).map (fun key =>
    match lookupReg reg key with
    | some info => info.inst
    | none => none)

/-- `getPlatform(platformId)` (lines 133-144). -/
def getPlatform (reg : Registry) (platformId : String) :
    Except PlatformError PlatformInstance :=
  match lookupReg reg platformId with
  | none => Except.error (PlatformError.platformNotFound platformId)
  | some info =>
      match info.inst with
      | none => Except.error (PlatformError.platformNotLoaded platformId)
      | some i => Except.ok i

/-- A platform id is backed by package `packageName` when its registry entry
names that (non-empty) package. -/
def backedBy (reg : Registry) (platformId packageName : String) : Bool :=
  match lookupReg reg platformId with
  | some info => info.packageName == packageName && !(packageName == "")
  | none => false

/-- All platform ids of the batch that are backed by `packageName`, in batch
order. -/
def idsBacked (reg : Registry) (platforms : List String) (packageName : String) :
    List String :=
  platforms.filter (fun platformId => backedBy reg platformId packageName)

/-- Number of load tasks created for `packageName`. -/
def countLoad (seeds : List TaskSeed) (packageName : String) : Nat :=
  seeds.countP (fun s =>
    match s with
    | TaskSeed.load p _ => p == packageName
    | TaskSeed.notRegistered _ => false)

/-- Number of module-resolution calls (`loadPlatform` invocations) made for
`packageName` during one batch. -/
def resolutionCalls (env : ModuleEnv) (reg : Registry) (platforms : List String)
    (packageName : String) : Nat :=
  (loadPlatformsTrace env reg platforms).count (Event.createTask packageName)

/-- The `source` property of a platform id's registry entry. -/
def sourceOf (reg : Registry) (platformId : String) : String :=
  match lookupReg reg platformId with
  | some info => info.source
  | none => ""

/-- Events emitted during task creation. -/
def Event.isCreationPhase : Event → Bool
  | Event.queuePackageInstallation _ _ => true
  | Event.createTask _ => true
  | Event.rejectNotRegistered _ => true
  | _ => false

/-- Events of the awaiting phase of a batch. -/
def Event.isAwaitPhase : Event → Bool
  | Event.settleTask _ => true
  | Event.batchSettled => true
  | _ => false

/-! ### Basic facts about the platform map and the reduce step -/

theorem lookupMap_mapAppend_self (m : List (String × List String)) (key x : String) :
    lookupMap (mapAppend m key x) key = some ((lookupMap m key).getD [] ++ [x]) := by
  induction m with
  | nil => simp [mapAppend, lookupMap]
  | cons kv rest ih =>
      obtain ⟨k, v⟩ := kv
      by_cases hk : k = key
      · subst hk
        simp [mapAppend, lookupMap]
      · simp [mapAppend, lookupMap, hk, ih]

theorem lookupMap_mapAppend_ne (m : List (String × List String)) (key' key x : String)
    (h : key' ≠ key) : lookupMap (mapAppend m key' x) key = lookupMap m key := by
  induction m with
  | nil => simp [mapAppend, lookupMap, h]
  | cons kv rest ih =>
      obtain ⟨k, v⟩ := kv
      by_cases hk : k = key'
      · subst hk
        simp [mapAppend, lookupMap, h]
      · by_cases hk2 : k = key
        · simp [mapAppend, lookupMap, hk, hk2, Ne.symm h]
        · simp [mapAppend, lookupMap, hk, hk2, ih]

theorem backedBy_eq {reg : Registry} {p pkg : String} (h : backedBy reg p pkg = true) :
    ∃ info, lookupReg reg p = some info ∧ info.packageName = pkg ∧ pkg ≠ "" := by
  unfold backedBy at h
  cases hr : lookupReg reg p with
  | none => rw [hr] at h; exact absurd h (by simp)
  | some info =>
      rw [hr] at h
      refine ⟨info, rfl, ?_, ?_⟩
      · have := (Bool.and_eq_true _ _).mp h
        exact eq_of_beq this.1
      · have := (Bool.and_eq_true _ _).mp h
        intro hc
        rw [hc] at this
        simp at this

theorem backedBy_intro {reg : Registry} {p pkg : String} {info : PlatformInfo}
    (hr : lookupReg reg p = some info) (hpn : info.packageName = pkg) (hne : pkg ≠ "") :
    backedBy reg p pkg = true := by
  unfold backedBy
  rw [hr]
  simp [hpn, hne]

theorem buildStep_backed_some {reg : Registry} {p pkg : String} (acc : BuildState)
    {l : List String} (h : backedBy reg p pkg = true)
    (hm : lookupMap acc.platformMap pkg = some l) :
    buildStep reg acc p = ⟨mapAppend acc.platformMap pkg p, acc.taskList⟩ := by
  obtain ⟨info, hr, hpn, hne⟩ := backedBy_eq h
  unfold buildStep
  rw [hr]
  simp [hpn, hne, hm]

theorem buildStep_backed_none {reg : Registry} {p pkg : String} (acc : BuildState)
    (h : backedBy reg p pkg = true) (hm : lookupMap acc.platformMap pkg = none) :
    buildStep reg acc p =
      ⟨mapAppend acc.platformMap pkg p,
        acc.taskList ++ [TaskSeed.load pkg (sourceOf reg p)]⟩ := by
  obtain ⟨info, hr, hpn, hne⟩ := backedBy_eq h
  unfold buildStep
  rw [hr]
  simp [hpn, hne, hm, sourceOf, hr]

theorem buildStep_absent {reg : Registry} {p : String} (acc : BuildState)
    (hr : lookupReg reg p = none) :
    buildStep reg acc p = ⟨acc.platformMap, acc.taskList ++ [TaskSeed.notRegistered p]⟩ := by
  unfold buildStep
  rw [hr]

theorem buildStep_empty_packageName {reg : Registry} {p : String} {info : PlatformInfo}
    (acc : BuildState) (hr : lookupReg reg p = some info) (hpn : info.packageName = "") :
    buildStep reg acc p = ⟨acc.platformMap, acc.taskList ++ [TaskSeed.notRegistered p]⟩ := by
  unfold buildStep
  rw [hr]
  simp [hpn]

theorem countLoad_append (s t : List TaskSeed) (pkg : String) :
    countLoad (s ++ t) pkg = countLoad s pkg + countLoad t pkg := by
  simp [countLoad, List.countP_append]

theorem countLoad_load_ne {p pkg : String} (src : String) (h : p ≠ pkg) :
    countLoad [TaskSeed.load p src] pkg = 0 := by
  simp [countLoad, List.countP, List.countP.go, beq_eq_false_iff_ne.mpr h]

theorem countLoad_notRegistered (x pkg : String) :
    countLoad [TaskSeed.notRegistered x] pkg = 0 := by
  simp [countLoad, List.countP, List.countP.go]

theorem buildStep_notbacked {reg : Registry} {p pkg : String} (acc : BuildState)
    (h : backedBy reg p pkg = false) :
    lookupMap (buildStep reg acc p).platformMap pkg = lookupMap acc.platformMap pkg ∧
    countLoad (buildStep reg acc p).taskList pkg = countLoad acc.taskList pkg := by
  cases hr : lookupReg reg p with
  | none =>
      rw [buildStep_absent acc hr]
      simpa using (countLoad_append acc.taskList [TaskSeed.notRegistered p] pkg).symm ▸
        (by simp [countLoad_append, countLoad_notRegistered])
  | some info =>
      by_cases hpn : info.packageName = ""
      · rw [buildStep_empty_packageName acc hr hpn]
        constructor
        · rfl
        · simp [countLoad_append, countLoad_notRegistered]
      · have hne : info.packageName ≠ pkg := by
          intro hc
          have : backedBy reg p pkg = true := backedBy_intro hr hc (hc ▸ hpn)
          rw [h] at this
          exact absurd this (by simp)
        unfold buildStep
        rw [hr]
        simp only [hpn, if_neg hpn]
        cases hm : lookupMap acc.platformMap info.packageName with
        | some l =>
            constructor
            · exact lookupMap_mapAppend_ne _ _ _ _ hne
            · rfl
        | none =>
            constructor
            · exact lookupMap_mapAppend_ne _ _ _ _ hne
            · simp [countLoad_append, countLoad_load_ne _ hne]

theorem buildStep_taskList_grows (reg : Registry) (acc : BuildState) (p : String) :
    ∃ t, (buildStep reg acc p).taskList = acc.taskList ++ t := by
  unfold buildStep
  cases hr : lookupReg reg p with
  | none => exact ⟨[TaskSeed.notRegistered p], rfl⟩
  | some info =>
      by_cases hpn : info.packageName = ""
      · simp [hpn]
      · simp only [if_neg hpn]
        cases hm : lookupMap acc.platformMap info.packageName with
        | some l => exact ⟨[], by simp⟩
        | none => exact ⟨[TaskSeed.load info.packageName info.source], rfl⟩

theorem foldl_taskList_grows (reg : Registry) (ps : List String) :
    ∀ acc : BuildState, ∃ t, (ps.foldl (buildStep reg) acc).taskList = acc.taskList ++ t := by
  induction ps with
  | nil => intro acc; exact ⟨[], by simp⟩
  | cons p ps ih =>
      intro acc
      obtain ⟨t1, h1⟩ := buildStep_taskList_grows reg acc p
      obtain ⟨t2, h2⟩ := ih (buildStep reg acc p)
      exact ⟨t1 ++ t2, by simp [List.foldl_cons, h2, h1]⟩

/-! ### The deduplicating reduce: platform map and task count specifications -/

theorem idsBacked_cons_true {reg : Registry} {p pkg : String} (ps : List String)
    (h : backedBy reg p pkg = true) :
    idsBacked reg (p :: ps) pkg = p :: idsBacked reg ps pkg := by
  simp [idsBacked, List.filter_cons, h]

theorem idsBacked_cons_false {reg : Registry} {p pkg : String} (ps : List String)
    (h : backedBy reg p pkg = false) :
    idsBacked reg (p :: ps) pkg = idsBacked reg ps pkg := by
  simp [idsBacked, List.filter_cons, h]

theorem foldl_lookupMap_some (reg : Registry) (pkg : String) (ps : List String) :
    ∀ (acc : BuildState) (l : List String), lookupMap acc.platformMap pkg = some l →
      lookupMap ((ps.foldl (buildStep reg) acc)).platformMap pkg =
        some (l ++ idsBacked reg ps pkg) := by
  induction ps with
  | nil => intro acc l hm; simpa [idsBacked] using hm
  | cons p ps ih =>
      intro acc l hm
      rw [List.foldl_cons]
      cases hb : backedBy reg p pkg with
      | true =>
          rw [buildStep_backed_some acc hb hm]
          have hm2 : lookupMap (mapAppend acc.platformMap pkg p) pkg = some (l ++ [p]) := by
            rw [lookupMap_mapAppend_self, hm]
            rfl
          have := ih ⟨mapAppend acc.platformMap pkg p, acc.taskList⟩ (l ++ [p]) hm2
          rw [this, idsBacked_cons_true ps hb]
          simp
      | false =>
          have hstep := buildStep_notbacked acc hb
          have := ih (buildStep reg acc p) l (hstep.1.trans hm)
          rw [this, idsBacked_cons_false ps hb]

theorem foldl_lookupMap_none (reg : Registry) (pkg : String) (ps : List String) :
    ∀ acc : BuildState, lookupMap acc.platformMap pkg = none →
      lookupMap ((ps.foldl (buildStep reg) acc)).platformMap pkg =
        (if idsBacked reg ps pkg = [] then none else some (idsBacked reg ps pkg)) := by
  induction ps with
  | nil => intro acc hm; simpa [idsBacked] using hm
  | cons p ps ih =>
      intro acc hm
      rw [List.foldl_cons]
      cases hb : backedBy reg p pkg with
      | true =>
          rw [buildStep_backed_none acc hb hm]
          have hm2 : lookupMap (mapAppend acc.platformMap pkg p) pkg = some [p] := by
            rw [lookupMap_mapAppend_self, hm]
            rfl
          have := foldl_lookupMap_some reg pkg ps
            ⟨mapAppend acc.platformMap pkg p,
              acc.taskList ++ [TaskSeed.load pkg (sourceOf reg p)]⟩ [p] hm2
          rw [this, idsBacked_cons_true ps hb]
          simp
      | false =>
          have hstep := buildStep_notbacked acc hb
          have := ih (buildStep reg acc p) (hstep.1.trans hm)
          rw [this, idsBacked_cons_false ps hb]

theorem foldl_countLoad_some (reg : Registry) (pkg : String) (ps : List String) :
    ∀ (acc : BuildState) (l : List String), lookupMap acc.platformMap pkg = some l →
      countLoad ((ps.foldl (buildStep reg) acc)).taskList pkg =
        countLoad acc.taskList pkg := by
  induction ps with
  | nil => intro acc l hm; rfl
  | cons p ps ih =>
      intro acc l hm
      rw [List.foldl_cons]
      cases hb : backedBy reg p pkg with
      | true =>
          rw [buildStep_backed_some acc hb hm]
          have hm2 : lookupMap (mapAppend acc.platformMap pkg p) pkg = some (l ++ [p]) := by
            rw [lookupMap_mapAppend_self, hm]
            rfl
          exact ih ⟨mapAppend acc.platformMap pkg p, acc.taskList⟩ (l ++ [p]) hm2
      | false =>
          have hstep := buildStep_notbacked acc hb
          have := ih (buildStep reg acc p) l (hstep.1.trans hm)
          rw [this, hstep.2]

theorem foldl_countLoad_none (reg : Registry) (pkg : String) (ps : List String) :
    ∀ acc : BuildState, lookupMap acc.platformMap pkg = none →
      countLoad ((ps.foldl (buildStep reg) acc)).taskList pkg =
        countLoad acc.taskList pkg +
          (if idsBacked reg ps pkg = [] then 0 else 1) := by
  induction ps with
  | nil => intro acc hm; simp [idsBacked]
  | cons p ps ih =>
      intro acc hm
      rw [List.foldl_cons]
      cases hb : backedBy reg p pkg with
      | true =>
          rw [buildStep_backed_none acc hb hm]
          have hm2 : lookupMap (mapAppend acc.platformMap pkg p) pkg = some [p] := by
            rw [lookupMap_mapAppend_self, hm]
            rfl
          have := foldl_countLoad_some reg pkg ps
            ⟨mapAppend acc.platformMap pkg p,
              acc.taskList ++ [TaskSeed.load pkg (sourceOf reg p)]⟩ [p] hm2
          rw [this, idsBacked_cons_true ps hb]
          simp [countLoad_append, countLoad, List.countP_cons]
      | false =>
          have hstep := buildStep_notbacked acc hb
          have h1 : lookupMap (buildStep reg acc p).platformMap pkg = none :=
            hstep.1.trans hm
          have := ih (buildStep reg acc p) h1
          rw [this, hstep.2, idsBacked_cons_false ps hb]

/-- Specification of the dedup index: the `platformMap` entry for a package
is exactly the batch ids backed by it, in batch order. -/
theorem lookupMap_buildSeeds (reg : Registry) (ps : List String) (pkg : String) :
    lookupMap (buildSeeds reg ps).platformMap pkg =
      (if idsBacked reg ps pkg = [] then none else some (idsBacked reg ps pkg)) :=
  foldl_lookupMap_none reg pkg ps ⟨[], []⟩ rfl

/-- Specification of deduplication: one load task per package that some
batch id is backed by, none otherwise. -/
theorem countLoad_buildSeeds (reg : Registry) (ps : List String) (pkg : String) :
    countLoad (buildSeeds reg ps).taskList pkg =
      (if idsBacked reg ps pkg = [] then 0 else 1) := by
  have := foldl_countLoad_none reg pkg ps ⟨[], []⟩ rfl
  simpa [buildSeeds, countLoad] using this

theorem foldl_loadSeed_mem (reg : Registry) (pkg : String) (ps : List String) :
    ∀ acc : BuildState, lookupMap acc.platformMap pkg = none →
      idsBacked reg ps pkg ≠ [] →
      ∃ id, id ∈ ps ∧ backedBy reg id pkg = true ∧
        TaskSeed.load pkg (sourceOf reg id) ∈ ((ps.foldl (buildStep reg) acc)).taskList := by
  induction ps with
  | nil => intro acc hm hne; simp [idsBacked] at hne
  | cons p ps ih =>
      intro acc hm hne
      rw [List.foldl_cons]
      cases hb : backedBy reg p pkg with
      | true =>
          refine ⟨p, List.mem_cons_self p ps, hb, ?_⟩
          rw [buildStep_backed_none acc hb hm]
          obtain ⟨t, ht⟩ := foldl_taskList_grows reg ps
            ⟨mapAppend acc.platformMap pkg p,
              acc.taskList ++ [TaskSeed.load pkg (sourceOf reg p)]⟩
          rw [ht]
          exact List.mem_append_left _ (List.mem_append_right _ (List.mem_singleton.mpr rfl))
      | false =>
          have hstep := buildStep_notbacked acc hb
          have hne2 : idsBacked reg ps pkg ≠ [] := by
            rwa [idsBacked_cons_false ps hb] at hne
          obtain ⟨id, hid, hback, hmem⟩ := ih (buildStep reg acc p) (hstep.1.trans hm) hne2
          exact ⟨id, List.mem_cons_of_mem p hid, hback, hmem⟩

/-- A platform id whose registry entry is absent, or present without a
package name, contributes a rejected `notRegistered` task. -/
theorem notRegistered_seed_mem {reg : Registry} {id : String} {ps : List String}
    (h : lookupReg reg id = none ∨
      ∃ info, lookupReg reg id = some info ∧ info.packageName = "")
    (hid : id ∈ ps) :
    TaskSeed.notRegistered id ∈ (buildSeeds reg ps).taskList := by
  obtain ⟨l, r, rfl⟩ := List.append_of_mem hid
  unfold buildSeeds
  rw [List.foldl_append, List.foldl_cons]
  set acc1 := l.foldl (buildStep reg) ⟨[], []⟩ with hacc1
  have hstep : (buildStep reg acc1 id).taskList =
      acc1.taskList ++ [TaskSeed.notRegistered id] := by
    rcases h with hr | ⟨info, hr, hpn⟩
    · rw [buildStep_absent acc1 hr]
    · rw [buildStep_empty_packageName acc1 hr hpn]
  obtain ⟨t, ht⟩ := foldl_taskList_grows reg r (buildStep reg acc1 id)
  rw [ht, hstep]
  exact List.mem_append_left _ (List.mem_append_right _ (List.mem_singleton.mpr rfl))

/-! ### Settled tasks, Q.all and the result correspondence -/

theorem qAll_ok : ∀ {ts : List (Except PlatformError TaskResult)} {rs : List TaskResult},
    qAll ts = Except.ok rs → ts = rs.map Except.ok := by
  intro ts
  induction ts with
  | nil =>
      intro rs h
      simp only [qAll] at h
      cases h
      rfl
  | cons t rest ih =>
      intro rs h
      cases t with
      | ok r =>
          simp only [qAll] at h
          cases hq : qAll rest with
          | ok rs' =>
              rw [hq] at h
              simp only [Except.map] at h
              cases h
              simp [ih hq]
          | error e =>
              rw [hq] at h
              simp [Except.map] at h
      | error e => simp [qAll] at h

theorem runSeed_notRegistered_result (env : ModuleEnv)
    (m : List (String × List String)) (id : String) :
    (runSeed env m (TaskSeed.notRegistered id)).2 =
      Except.error (PlatformError.notRegistered id) := rfl

theorem runSeed_load_ok {env : ModuleEnv} {m : List (String × List String)}
    {pkg src : String} {r : TaskResult}
    (h : (runSeed env m (TaskSeed.load pkg src)).2 = Except.ok r) :
    r.id = pkg ∧ r.platforms = (lookupMap m pkg).getD [] := by
  simp only [runSeed, loadPlatform] at h
  cases hg : (getPlatformModule env pkg src).2 with
  | ok pm =>
      rw [hg] at h
      simp only [Except.map] at h
      cases h
      exact ⟨rfl, rfl⟩
  | error e =>
      rw [hg] at h
      simp [Except.map] at h

theorem runSeed_load_success {env : ModuleEnv} {m : List (String × List String)}
    {pkg src : String} {pm : PlatformModule}
    (h : (getPlatformModule env pkg src).2 = Except.ok pm) :
    (runSeed env m (TaskSeed.load pkg src)).2 =
      Except.ok ⟨pkg, pm.Platform, (lookupMap m pkg).getD []⟩ := by
  simp [runSeed, loadPlatform, h, Except.map]

/-- Pointwise correspondence between the settled task list and the values
collected by a successful `Q.all`. -/
theorem seedResults (env : ModuleEnv) (m : List (String × List String)) (pkg : String) :
    ∀ (seeds : List TaskSeed) (rs : List TaskResult),
      seeds.map (fun s => (runSeed env m s).2) = rs.map Except.ok →
      rs.countP (fun r => r.id == pkg) = countLoad seeds pkg ∧
      ∀ r, r ∈ rs → r.id = pkg → r.platforms = (lookupMap m pkg).getD [] := by
  intro seeds
  induction seeds with
  | nil =>
      intro rs h
      have : rs = [] := by
        cases rs with
        | nil => rfl
        | cons r rs' => simp at h
      subst this
      exact ⟨rfl, by intro r hr; simp at hr⟩
  | cons s seeds ih =>
      intro rs h
      cases rs with
      | nil => simp at h
      | cons r rs' =>
          simp only [List.map_cons, List.cons.injEq] at h
          obtain ⟨hhead, htail⟩ := h
          have ihr := ih rs' htail
          cases s with
          | load p' src =>
              obtain ⟨hid, hplat⟩ := runSeed_load_ok hhead
              constructor
              · have hb : (r.id == pkg) = (p' == pkg) := by rw [hid]
                simp only [countLoad, List.countP_cons, hb]
                have h1 := ihr.1
                simp only [countLoad] at h1
                omega
              · intro r2 hr2 hr2id
                rcases List.mem_cons.mp hr2 with h2 | h2
                · subst h2
                  exact (hid.symm.trans hr2id) ▸ hplat
                · exact ihr.2 r2 h2 hr2id
          | notRegistered x =>
              rw [runSeed_notRegistered_result] at hhead
              simp at hhead

/-! ### The event trace of a batch -/

theorem getPlatformModule_events (env : ModuleEnv) (pkg src : String) :
    (getPlatformModule env pkg src).1 = [] ∨
    (getPlatformModule env pkg src).1 = [Event.queuePackageInstallation pkg src] := by
  unfold getPlatformModule
  by_cases h1 : pkg = ""
  · simp [h1]
  · by_cases h2 : src = ""
    · simp [h1, h2]
    · simp only [if_neg h1, if_neg h2]
      cases env.resolvePre pkg with
      | ok m => simp
      | err code =>
          by_cases h3 : code = "MODULE_NOT_FOUND"
          · simp [h3]
          · simp [h3]

theorem seedEvents_creationPhase (env : ModuleEnv) (s : TaskSeed) :
    ∀ e ∈ seedEvents env s, Event.isCreationPhase e = true := by
  intro e he
  cases s with
  | load pkg src =>
      simp only [seedEvents, loadPlatform, List.mem_cons] at he
      rcases he with rfl | he
      · rfl
      · rcases getPlatformModule_events env pkg src with h | h
        · rw [h] at he; simp at he
        · rw [h] at he
          simp only [List.mem_singleton] at he
          subst he
          rfl
  | notRegistered id =>
      simp only [seedEvents, List.mem_singleton] at he
      subst he
      rfl

theorem seedEvents_count_createTask (env : ModuleEnv) (pkg : String) (s : TaskSeed) :
    (seedEvents env s).count (Event.createTask pkg) = countLoad [s] pkg := by
  cases s with
  | load p' src =>
      simp only [seedEvents, loadPlatform, List.count_cons]
      have hq : ((getPlatformModule env p' src).1).count (Event.createTask pkg) = 0 := by
        rcases getPlatformModule_events env p' src with h | h <;> simp [h]
      rw [hq]
      by_cases hp : p' = pkg
      · subst hp
        simp [countLoad, List.countP, List.countP.go]
      · simp [countLoad, List.countP, List.countP.go, hp,
          beq_eq_false_iff_ne.mpr hp]
  | notRegistered id =>
      simp [seedEvents, countLoad, List.countP, List.countP.go]

theorem flatten_count_createTask (env : ModuleEnv) (pkg : String) :
    ∀ seeds : List TaskSeed,
      ((seeds.map (seedEvents env)).flatten).count (Event.createTask pkg) =
        countLoad seeds pkg := by
  intro seeds
  induction seeds with
  | nil => simp [countLoad]
  | cons s seeds ih =>
      simp only [List.map_cons, List.flatten_cons, List.count_append, ih,
        seedEvents_count_createTask env pkg s]
      have : countLoad (s :: seeds) pkg = countLoad [s] pkg + countLoad seeds pkg := by
        simpa using countLoad_append [s] seeds pkg
      omega

/-- The number of module-resolution calls of a batch equals the number of
load tasks created by its reduce. -/
theorem resolutionCalls_eq_countLoad (env : ModuleEnv) (reg : Registry)
    (ps : List String) (pkg : String) :
    resolutionCalls env reg ps pkg = countLoad (buildSeeds reg ps).taskList pkg := by
  unfold resolutionCalls loadPlatformsTrace
  simp only [List.count_append, flatten_count_createTask]
  have h1 : [Event.installQueuedPackages].count (Event.createTask pkg) = 0 := by simp
  have h2 : ((List.range (buildSeeds reg ps).taskList.length).map Event.settleTask).count
      (Event.createTask pkg) = 0 := by
    rw [List.count_eq_zero]
    intro hc
    rcases List.mem_map.mp hc with ⟨k, _, hk⟩
    cases hk
  have h3 : [Event.batchSettled].count (Event.createTask pkg) = 0 := by simp
  omega

/-! ### Concrete fixtures used by witnesses and counterexamples -/

/-- The configuration of the specification's test scenario:
`a` and `b` are backed by `modA`, `c` by `modC`; nothing loaded yet. -/
def regW : Registry :=
  [("a", ⟨"modA", "src", none⟩), ("b", ⟨"modA", "src", none⟩),
   ("c", ⟨"modC", "src2", none⟩)]

/-- A module system where `modA` is already installed and `modC` becomes
resolvable only after the queued installations ran. -/
def envW : ModuleEnv where
  resolvePre := fun p =>
    if p = "modA" then RequireOutcome.ok ⟨1⟩ else RequireOutcome.err "MODULE_NOT_FOUND"
  resolvePost := fun p =>
    if p = "modC" then RequireOutcome.ok ⟨2⟩ else RequireOutcome.err "MODULE_NOT_FOUND"

/-- A registry entry whose platform has already been loaded. -/
def regLoaded : Registry := [("a", ⟨"modA", "src", some ⟨1, "modA", ["a"]⟩⟩)]

/-- A registry with one registered but never loaded platform. -/
def regUnloaded : Registry := [("a", ⟨"modA", "src", none⟩)]

/-- A registry entry with an empty package name. -/
def regNoPackage : Registry := [("a", ⟨"", "src", none⟩)]

/-- A module system whose resolution fails with an error other than
`MODULE_NOT_FOUND`. -/
def envBroken : ModuleEnv where
  resolvePre := fun _ => RequireOutcome.err "EACCES"
  resolvePost := fun _ => RequireOutcome.err "EACCES"

/-! ### Claim theorems -/

/-- C1: in every batch in which two or more platform ids are registered
with the same package name, exactly one module-resolution call is made for
that package, and (when the batch succeeds) a single shared instance is
constructed for it carrying the full list of batch ids backed by that
package, every one of those ids included. -/
theorem loadPlatforms_dedup_shared_instance (env : ModuleEnv) (reg : Registry)
    (ps : List String) (pkg i j : String)
    (_hij : i ≠ j) (hi : i ∈ ps) (hj : j ∈ ps)
    (hbi : backedBy reg i pkg = true) (hbj : backedBy reg j pkg = true) :
    resolutionCalls env reg ps pkg = 1 ∧
    ∀ insts, loadPlatforms env reg ps = Except.ok insts →
      ∃ inst, inst ∈ insts ∧ inst.id = pkg ∧
        inst.platforms = idsBacked reg ps pkg ∧
        i ∈ inst.platforms ∧ j ∈ inst.platforms ∧
        (insts.filter (fun x => x.id == pkg)).length = 1 := by
  have hiB : i ∈ idsBacked reg ps pkg := List.mem_filter.mpr ⟨hi, hbi⟩
  have hjB : j ∈ idsBacked reg ps pkg := List.mem_filter.mpr ⟨hj, hbj⟩
  have hne : idsBacked reg ps pkg ≠ [] := by
    intro hc
    rw [hc] at hiB
    simp at hiB
  constructor
  · rw [resolutionCalls_eq_countLoad, countLoad_buildSeeds, if_neg hne]
  · intro insts hok
    unfold loadPlatforms at hok
    cases hq : qAll (loadPlatformsTasks env reg ps) with
    | error e =>
        rw [hq] at hok
        simp [Except.map] at hok
    | ok rs =>
        rw [hq] at hok
        simp only [Except.map] at hok
        injection hok with hok
        subst hok
        have hts : loadPlatformsTasks env reg ps = rs.map Except.ok := qAll_ok hq
        simp only [loadPlatformsTasks] at hts
        obtain ⟨hcount, hplat⟩ :=
          seedResults env (buildSeeds reg ps).platformMap pkg
            (buildSeeds reg ps).taskList rs hts
        rw [countLoad_buildSeeds, if_neg hne] at hcount
        rw [List.countP_eq_length_filter] at hcount
        obtain ⟨r, hr⟩ := List.length_eq_one.mp hcount
        have hrmem : r ∈ rs ∧ (r.id == pkg) = true :=
          List.mem_filter.mp (hr ▸ List.mem_singleton.mpr rfl)
        have hrid : r.id = pkg := eq_of_beq hrmem.2
        have hmapspec : lookupMap (buildSeeds reg ps).platformMap pkg =
            some (idsBacked reg ps pkg) := by
          rw [lookupMap_buildSeeds, if_neg hne]
        have hrplat : r.platforms = idsBacked reg ps pkg := by
          rw [hplat r hrmem.1 hrid, hmapspec]
          rfl
        refine ⟨mkInstance r, List.mem_map_of_mem mkInstance hrmem.1, hrid, hrplat,
          ?_, ?_, ?_⟩
        · show i ∈ r.platforms
          rw [hrplat]
          exact hiB
        · show j ∈ r.platforms
          rw [hrplat]
          exact hjB
        rw [← List.countP_eq_length_filter, List.countP_map]
        have : ((fun x : PlatformInstance => x.id == pkg) ∘ mkInstance) =
            (fun r : TaskResult => r.id == pkg) := rfl
        rw [this, List.countP_eq_length_filter, hr]
        rfl

/-- C1 witness: in the scenario registry, `a` and `b` share `modA`;
one resolution call, one shared instance listing both. -/
theorem loadPlatforms_dedup_shared_instance_witness :
    resolutionCalls envW regW ["a", "b", "c"] "modA" = 1 ∧
    ∃ inst, inst ∈ [PlatformInstance.mk 1 "modA" ["a", "b"],
        PlatformInstance.mk 2 "modC" ["c"]] ∧ inst.id = "modA" ∧
      inst.platforms = idsBacked regW ["a", "b", "c"] "modA" ∧
      "a" ∈ inst.platforms ∧ "b" ∈ inst.platforms ∧
      ([PlatformInstance.mk 1 "modA" ["a", "b"],
        PlatformInstance.mk 2 "modC" ["c"]].filter (fun x => x.id == "modA")).length = 1 := by
  have h := loadPlatforms_dedup_shared_instance envW regW ["a", "b", "c"] "modA" "a" "b"
    (by decide) (by decide) (by decide) (by decide) (by decide)
  exact ⟨h.1, h.2 _ (by decide)⟩

theorem loadPlatforms_ok_elim {env : ModuleEnv} {reg : Registry} {ps : List String}
    {insts : List PlatformInstance}
    (hok : loadPlatforms env reg ps = Except.ok insts) :
    ∃ rs : List TaskResult,
      loadPlatformsTasks env reg ps = rs.map Except.ok ∧ insts = rs.map mkInstance := by
  unfold loadPlatforms at hok
  cases hq : qAll (loadPlatformsTasks env reg ps) with
  | error e =>
      rw [hq] at hok
      simp [Except.map] at hok
  | ok rs =>
      rw [hq] at hok
      simp only [Except.map] at hok
      injection hok with hok
      exact ⟨rs, qAll_ok hq, hok.symm⟩

/-- C2 counterexample: loading the batch `[a, b]` over the scenario registry
succeeds and returns the shared instance, yet `registeredPlatforms` was
never written (`loadPlatforms` contains no assignment to any entry's
`instance`), so a subsequent `getPlatform("a")` does not return that
instance — it fails with the not-loaded error. -/
theorem loadPlatforms_not_stored_cex :
    loadPlatforms envW regW ["a", "b"] =
      Except.ok [PlatformInstance.mk 1 "modA" ["a", "b"]] ∧
    getPlatform regW "a" = Except.error (PlatformError.platformNotLoaded "a") := by
  decide

/-- C2 amended: after a successful `loadPlatforms`, the single instance
created for each module is returned to the caller, tagged with every
platform id it serves — but it is not stored in the registry entries, so
`getPlatform(id)` for an entry whose `instance` is still unset keeps
failing with the not-loaded error. -/
theorem loadPlatforms_instance_not_stored (env : ModuleEnv) (reg : Registry)
    (ps : List String) (insts : List PlatformInstance) (id : String)
    (info : PlatformInfo)
    (hok : loadPlatforms env reg ps = Except.ok insts) (hid : id ∈ ps)
    (hreg : lookupReg reg id = some info) (hinst : info.inst = none) :
    info.packageName ≠ "" ∧
    (∃ inst, inst ∈ insts ∧ inst.id = info.packageName ∧ id ∈ inst.platforms) ∧
    getPlatform reg id = Except.error (PlatformError.platformNotLoaded id) := by
  obtain ⟨rs, hts, hinsts⟩ := loadPlatforms_ok_elim hok
  have hallok : ∀ t ∈ loadPlatformsTasks env reg ps, ∃ r, t = Except.ok r := by
    intro t ht
    rw [hts] at ht
    rcases List.mem_map.mp ht with ⟨r, _, heq⟩
    exact ⟨r, heq.symm⟩
  have hpn : info.packageName ≠ "" := by
    intro hpn
    have hseed := notRegistered_seed_mem (Or.inr ⟨info, hreg, hpn⟩) hid
    have hmem : (runSeed env (buildSeeds reg ps).platformMap
        (TaskSeed.notRegistered id)).2 ∈ loadPlatformsTasks env reg ps := by
      simp only [loadPlatformsTasks]
      exact List.mem_map_of_mem _ hseed
    rw [runSeed_notRegistered_result] at hmem
    obtain ⟨r, hr⟩ := hallok _ hmem
    simp at hr
  refine ⟨hpn, ?_, by simp [getPlatform, hreg, hinst]⟩
  have hb : backedBy reg id info.packageName = true := backedBy_intro hreg rfl hpn
  have hidB : id ∈ idsBacked reg ps info.packageName := List.mem_filter.mpr ⟨hid, hb⟩
  have hne : idsBacked reg ps info.packageName ≠ [] := by
    intro hc
    rw [hc] at hidB
    simp at hidB
  obtain ⟨id2, hid2, hb2, hseedmem⟩ :=
    foldl_loadSeed_mem reg info.packageName ps ⟨[], []⟩ rfl hne
  have hmem : (runSeed env (buildSeeds reg ps).platformMap
      (TaskSeed.load info.packageName (sourceOf reg id2))).2
      ∈ loadPlatformsTasks env reg ps := by
    simp only [loadPlatformsTasks]
    exact List.mem_map_of_mem _ hseedmem
  obtain ⟨r, hr⟩ := hallok _ hmem
  obtain ⟨hrid, hrplat⟩ := runSeed_load_ok hr
  have hrmem : Except.ok r ∈ loadPlatformsTasks env reg ps := hr ▸ hmem
  rw [hts] at hrmem
  have hrs : r ∈ rs := by
    rcases List.mem_map.mp hrmem with ⟨r', hr', heq⟩
    injection heq with heq
    exact heq ▸ hr'
  refine ⟨mkInstance r, ?_, hrid, ?_⟩
  · rw [hinsts]
    exact List.mem_map_of_mem mkInstance hrs
  · show id ∈ r.platforms
    rw [hrplat, lookupMap_buildSeeds, if_neg hne]
    exact hidB

/-- C2 amended witness: the concrete batch `[a, b]`. -/
theorem loadPlatforms_instance_not_stored_witness :
    ("modA" : String) ≠ "" ∧
    (∃ inst, inst ∈ [PlatformInstance.mk 1 "modA" ["a", "b"]] ∧
      inst.id = "modA" ∧ "a" ∈ inst.platforms) ∧
    getPlatform regW "a" = Except.error (PlatformError.platformNotLoaded "a") :=
  loadPlatforms_instance_not_stored envW regW ["a", "b"]
    [PlatformInstance.mk 1 "modA" ["a", "b"]] "a" ⟨"modA", "src", none⟩
    (by decide) (by decide) (by decide) rfl

/-- C3: every task of a batch reaches a settled final state and the batch
only settles afterwards: an unregistered id contributes its rejected
`notRegistered` task while the load tasks of validly registered ids still
run to successful completion, and the trace ends with the batch settling
after every task settled (the `Q.allSettled` in the source's `finally`). -/
theorem loadPlatforms_settle_all (env : ModuleEnv) (reg : Registry) (ps : List String)
    (idU : String) (hU : idU ∈ ps) (hUreg : lookupReg reg idU = none) :
    Except.error (PlatformError.notRegistered idU) ∈ loadPlatformsTasks env reg ps ∧
    (∀ idV pkg m, idV ∈ ps → backedBy reg idV pkg = true →
      env.resolvePre pkg = RequireOutcome.ok m →
      (∀ id2, id2 ∈ ps → backedBy reg id2 pkg = true → sourceOf reg id2 ≠ "") →
      ∃ r, Except.ok r ∈ loadPlatformsTasks env reg ps ∧ r.id = pkg ∧
        idV ∈ r.platforms) ∧
    ∃ pre, loadPlatformsTrace env reg ps = pre ++ [Event.batchSettled] ∧
      ∀ k, k < (loadPlatformsTasks env reg ps).length → Event.settleTask k ∈ pre := by
  refine ⟨?_, ?_, ?_⟩
  · have hseed := notRegistered_seed_mem (Or.inl hUreg) hU
    have hmem : (runSeed env (buildSeeds reg ps).platformMap
        (TaskSeed.notRegistered idU)).2 ∈ loadPlatformsTasks env reg ps := by
      simp only [loadPlatformsTasks]
      exact List.mem_map_of_mem _ hseed
    simpa [runSeed_notRegistered_result] using hmem
  · intro idV pkg m hV hbV hpre hsrc
    obtain ⟨infoV, hrV, hpnV, hpkg⟩ := backedBy_eq hbV
    have hVB : idV ∈ idsBacked reg ps pkg := List.mem_filter.mpr ⟨hV, hbV⟩
    have hne : idsBacked reg ps pkg ≠ [] := by
      intro hc
      rw [hc] at hVB
      simp at hVB
    obtain ⟨id2, hid2, hb2, hseedmem⟩ := foldl_loadSeed_mem reg pkg ps ⟨[], []⟩ rfl hne
    have hsrc2 : sourceOf reg id2 ≠ "" := hsrc id2 hid2 hb2
    have hresolve : (getPlatformModule env pkg (sourceOf reg id2)).2 = Except.ok m := by
      unfold getPlatformModule
      simp [hpkg, hsrc2, hpre]
    have hrun := runSeed_load_success
      (m := (buildSeeds reg ps).platformMap) hresolve
    have hmem : (runSeed env (buildSeeds reg ps).platformMap
        (TaskSeed.load pkg (sourceOf reg id2))).2 ∈ loadPlatformsTasks env reg ps := by
      simp only [loadPlatformsTasks]
      exact List.mem_map_of_mem _ hseedmem
    rw [hrun] at hmem
    refine ⟨⟨pkg, m.Platform, (lookupMap (buildSeeds reg ps).platformMap pkg).getD []⟩,
      hmem, rfl, ?_⟩
    show idV ∈ (lookupMap (buildSeeds reg ps).platformMap pkg).getD []
    rw [lookupMap_buildSeeds, if_neg hne]
    exact hVB
  · refine ⟨((buildSeeds reg ps).taskList.map (seedEvents env)).flatten
      ++ [Event.installQueuedPackages]
      ++ (List.range (buildSeeds reg ps).taskList.length).map Event.settleTask, ?_, ?_⟩
    · simp [loadPlatformsTrace]
    · intro k hk
      have hlen : (loadPlatformsTasks env reg ps).length =
          (buildSeeds reg ps).taskList.length := by
        simp [loadPlatformsTasks]
      rw [hlen] at hk
      exact List.mem_append_right _ (List.mem_map_of_mem _ (List.mem_range.mpr hk))

/-- C3 witness: batch `[a, x, b]` with `x` unregistered; the `modA` task of
`a` and `b` still completes successfully. -/
theorem loadPlatforms_settle_all_witness :
    Except.error (PlatformError.notRegistered "x")
      ∈ loadPlatformsTasks envW regW ["a", "x", "b"] ∧
    ∃ r, Except.ok r ∈ loadPlatformsTasks envW regW ["a", "x", "b"] ∧
      r.id = "modA" ∧ "a" ∈ r.platforms := by
  have h := loadPlatforms_settle_all envW regW ["a", "x", "b"] "x" (by decide) (by decide)
  refine ⟨h.1, h.2.1 "a" "modA" ⟨1⟩ (by decide) (by decide) (by decide) ?_⟩
  intro id2 h1 h2
  simp only [List.mem_cons, List.not_mem_nil, or_false] at h1
  rcases h1 with rfl | rfl | rfl
  · decide
  · exact absurd h2 (by decide)
  · decide

/-- C4 counterexample: a registry with one registered, never loaded entry.
`getAllPlatforms` does not omit it; the returned sequence has one element
(the unset `instance`, i.e. `none`) rather than being empty as the claim
requires. -/
theorem getAllPlatforms_unloaded_cex :
    getAllPlatforms regUnloaded = [none] ∧
    getAllPlatforms regUnloaded ≠ ([] : List (Option PlatformInstance)) := by
  decide

/-- C4 amended: `getAllPlatforms` returns the `instance` field of every
registered entry — one element per registered platform id, with `none`
(JavaScript `undefined`) standing in for entries that were never loaded;
unloaded entries are not omitted. -/
theorem getAllPlatforms_every_entry (reg : Registry) :
    (getAllPlatforms reg).length = reg.length ∧
    ∀ id info, lookupReg reg id = some info → info.inst ∈ getAllPlatforms reg := by
  constructor
  · simp [getAllPlatforms]
  · intro id info h
    have hkey : id ∈ reg.map (fun kv => kv.1) := by
      induction reg with
      | nil => simp [lookupReg] at h
      | cons kv rest ih =>
          obtain ⟨k, v⟩ := kv
          by_cases hk : k = id
          · simp [hk]
          · simp only [lookupReg, if_neg hk] at h
            simp [ih h]
    have hval : (fun key => match lookupReg reg key with
        | some i => i.inst
        | none => none) id = info.inst := by
      show (match lookupReg reg id with
        | some i => i.inst
        | none => none) = info.inst
      rw [h]
    exact hval ▸ List.mem_map_of_mem _ hkey

/-- C4 amended witness: the single-entry unloaded registry. -/
theorem getAllPlatforms_every_entry_witness :
    (getAllPlatforms regUnloaded).length = 1 ∧
    (none : Option PlatformInstance) ∈ getAllPlatforms regUnloaded :=
  ⟨(getAllPlatforms_every_entry regUnloaded).1,
   (getAllPlatforms_every_entry regUnloaded).2 "a" ⟨"modA", "src", none⟩ (by decide)⟩

/-- C5: when direct resolution of a non-empty package name fails with
`MODULE_NOT_FOUND`, `getPlatformModule` queues the installation with the
package acquirer and, once the acquirer completed, re-attempts resolution
and returns the resolved module.  The emitted effect list holds only the
queue call — no installation is performed here. -/
theorem getPlatformModule_queues_then_resolves (env : ModuleEnv) (pkg src : String)
    (m : PlatformModule) (hp : pkg ≠ "") (hs : src ≠ "")
    (hpre : env.resolvePre pkg = RequireOutcome.err "MODULE_NOT_FOUND")
    (hpost : env.resolvePost pkg = RequireOutcome.ok m) :
    getPlatformModule env pkg src =
      ([Event.queuePackageInstallation pkg src], Except.ok m) := by
  unfold getPlatformModule
  simp [hp, hs, hpre, hpost]

/-- C5 witness: `modC` is missing before the flush and resolvable after. -/
theorem getPlatformModule_queues_then_resolves_witness :
    getPlatformModule envW "modC" "src2" =
      ([Event.queuePackageInstallation "modC" "src2"], Except.ok ⟨2⟩) :=
  getPlatformModule_queues_then_resolves envW "modC" "src2" ⟨2⟩
    (by decide) (by decide) (by decide) (by decide)

/-- C6: in every `loadPlatforms` call the acquirer's bulk-install flush
(`installQueuedPackages`) appears exactly once in the trace, after all the
events of task creation (resolution calls, queue calls, immediate
rejections) and before any task or the batch settles. -/
theorem installQueuedPackages_once (env : ModuleEnv) (reg : Registry)
    (ps : List String) :
    (loadPlatformsTrace env reg ps).count Event.installQueuedPackages = 1 ∧
    ∃ pre post,
      loadPlatformsTrace env reg ps = pre ++ Event.installQueuedPackages :: post ∧
      pre.all Event.isCreationPhase = true ∧
      post.all Event.isAwaitPhase = true := by
  have hA : ∀ e ∈ ((buildSeeds reg ps).taskList.map (seedEvents env)).flatten,
      Event.isCreationPhase e = true := by
    intro e he
    rcases List.mem_flatten.mp he with ⟨l, hl, hel⟩
    rcases List.mem_map.mp hl with ⟨s, _, rfl⟩
    exact seedEvents_creationPhase env s e hel
  have hS : ∀ e ∈ ((List.range (buildSeeds reg ps).taskList.length).map Event.settleTask
      ++ [Event.batchSettled]), Event.isAwaitPhase e = true := by
    intro e he
    rcases List.mem_append.mp he with he | he
    · rcases List.mem_map.mp he with ⟨k, _, rfl⟩
      rfl
    · rw [List.mem_singleton.mp he]
      rfl
  have htrace : loadPlatformsTrace env reg ps =
      ((buildSeeds reg ps).taskList.map (seedEvents env)).flatten
        ++ Event.installQueuedPackages ::
          ((List.range (buildSeeds reg ps).taskList.length).map Event.settleTask
            ++ [Event.batchSettled]) := by
    simp [loadPlatformsTrace]
  constructor
  · rw [htrace, List.count_append, List.count_cons]
    have h1 : (((buildSeeds reg ps).taskList.map (seedEvents env)).flatten).count
        Event.installQueuedPackages = 0 := by
      rw [List.count_eq_zero]
      intro hc
      have := hA _ hc
      simp [Event.isCreationPhase] at this
    have h2 : (((List.range (buildSeeds reg ps).taskList.length).map Event.settleTask
        ++ [Event.batchSettled])).count Event.installQueuedPackages = 0 := by
      rw [List.count_eq_zero]
      intro hc
      have := hS _ hc
      simp [Event.isAwaitPhase] at this
    rw [h1, h2]
    simp
  · exact ⟨_, _, htrace, List.all_eq_true.mpr hA, List.all_eq_true.mpr hS⟩

/-- C7: a resolution failure other than `MODULE_NOT_FOUND` is rejected as a
`CustomError` wrapping the underlying cause; the acquirer is not contacted
(no queue event is emitted) and the error is not treated as missing. -/
theorem getPlatformModule_wraps_other_errors (env : ModuleEnv) (pkg src code : String)
    (hp : pkg ≠ "") (hs : src ≠ "")
    (hpre : env.resolvePre pkg = RequireOutcome.err code)
    (hcode : code ≠ "MODULE_NOT_FOUND") :
    getPlatformModule env pkg src =
      ([], Except.error (PlatformError.resolutionError pkg code)) := by
  unfold getPlatformModule
  simp [hp, hs, hpre, hcode]

/-- C7 witness: a module system failing with `EACCES`. -/
theorem getPlatformModule_wraps_other_errors_witness :
    getPlatformModule envBroken "modA" "src" =
      ([], Except.error (PlatformError.resolutionError "modA" "EACCES")) :=
  getPlatformModule_wraps_other_errors envBroken "modA" "src" "EACCES"
    (by decide) (by decide) (by decide) (by decide)

/-- C8: a missing package name or install source makes `getPlatformModule`
fail immediately with the corresponding invalid-argument rejection, with an
empty effect list — the package acquirer is never contacted. -/
theorem getPlatformModule_invalid_arguments (env : ModuleEnv) (pkg src : String) :
    (pkg = "" →
      getPlatformModule env pkg src = ([], Except.error PlatformError.nameMissing)) ∧
    (pkg ≠ "" → src = "" →
      getPlatformModule env pkg src = ([], Except.error PlatformError.sourceMissing)) := by
  constructor
  · intro h
    simp [getPlatformModule, h]
  · intro h1 h2
    simp [getPlatformModule, h1, h2]

/-- C8 witness: both invalid-argument shapes at concrete inputs. -/
theorem getPlatformModule_invalid_arguments_witness :
    getPlatformModule envW "" "src" = ([], Except.error PlatformError.nameMissing) ∧
    getPlatformModule envW "modA" "" = ([], Except.error PlatformError.sourceMissing) :=
  ⟨(getPlatformModule_invalid_arguments envW "" "src").1 rfl,
   (getPlatformModule_invalid_arguments envW "modA" "").2 (by decide) rfl⟩

/-- C9: `getPlatform` returns the loaded instance of a registered and
loaded id, fails with the not-found error for an id absent from the
registry, fails with the not-loaded error for a registered id whose
`instance` is still unset, and before any `enablePlatforms` the registry is
the empty initial object so every lookup fails with the not-found error. -/
theorem getPlatform_spec (reg : Registry) (id : String) :
    (∀ info inst, lookupReg reg id = some info → info.inst = some inst →
      getPlatform reg id = Except.ok inst) ∧
    (lookupReg reg id = none →
      getPlatform reg id = Except.error (PlatformError.platformNotFound id)) ∧
    (∀ info, lookupReg reg id = some info → info.inst = none →
      getPlatform reg id = Except.error (PlatformError.platformNotLoaded id)) ∧
    getPlatform initialRegistry id = Except.error (PlatformError.platformNotFound id) := by
  refine ⟨?_, ?_, ?_, rfl⟩
  · intro info inst h1 h2
    simp [getPlatform, h1, h2]
  · intro h
    simp [getPlatform, h]
  · intro info h1 h2
    simp [getPlatform, h1, h2]

/-- C9 witness: the four behaviours at concrete registries. -/
theorem getPlatform_spec_witness :
    getPlatform regLoaded "a" = Except.ok ⟨1, "modA", ["a"]⟩ ∧
    getPlatform regLoaded "zzz" = Except.error (PlatformError.platformNotFound "zzz") ∧
    getPlatform regUnloaded "a" = Except.error (PlatformError.platformNotLoaded "a") ∧
    getPlatform initialRegistry "a" = Except.error (PlatformError.platformNotFound "a") :=
  ⟨(getPlatform_spec regLoaded "a").1 ⟨"modA", "src", some ⟨1, "modA", ["a"]⟩⟩
      ⟨1, "modA", ["a"]⟩ (by decide) rfl,
   (getPlatform_spec regLoaded "zzz").2.1 (by decide),
   (getPlatform_spec regUnloaded "a").2.2.1 ⟨"modA", "src", none⟩ (by decide) rfl,
   (getPlatform_spec initialRegistry "a").2.2.2⟩

/-- C10: a registry entry with a missing/empty package name is treated
exactly like an absent entry: the reduce step adds the same rejected
`notRegistered` task, touches no platform-map entry and creates no load
task, so no module resolution is attempted for that id. -/
theorem emptyPackageName_not_registered (env : ModuleEnv) (reg : Registry)
    (ps : List String) (id : String) (info : PlatformInfo)
    (hreg : lookupReg reg id = some info) (hpn : info.packageName = "")
    (hid : id ∈ ps) :
    Except.error (PlatformError.notRegistered id) ∈ loadPlatformsTasks env reg ps ∧
    (∀ acc, buildStep reg acc id =
      ⟨acc.platformMap, acc.taskList ++ [TaskSeed.notRegistered id]⟩) ∧
    (∀ acc, buildStep reg acc id = buildStep [] acc id) := by
  refine ⟨?_, ?_, ?_⟩
  · have hseed := notRegistered_seed_mem (Or.inr ⟨info, hreg, hpn⟩) hid
    have hmem : (runSeed env (buildSeeds reg ps).platformMap
        (TaskSeed.notRegistered id)).2 ∈ loadPlatformsTasks env reg ps := by
      simp only [loadPlatformsTasks]
      exact List.mem_map_of_mem _ hseed
    simpa [runSeed_notRegistered_result] using hmem
  · intro acc
    exact buildStep_empty_packageName acc hreg hpn
  · intro acc
    rw [buildStep_empty_packageName acc hreg hpn,
      buildStep_absent acc (show lookupReg [] id = none from rfl)]

/-- C10 witness: an entry registered with an empty package name. -/
theorem emptyPackageName_not_registered_witness :
    Except.error (PlatformError.notRegistered "a")
      ∈ loadPlatformsTasks envW regNoPackage ["a"] ∧
    buildStep regNoPackage ⟨[], []⟩ "a" =
      ⟨[], [TaskSeed.notRegistered "a"]⟩ ∧
    buildStep regNoPackage ⟨[], []⟩ "a" = buildStep [] ⟨[], []⟩ "a" := by
  have h := emptyPackageName_not_registered envW regNoPackage ["a"] "a"
    ⟨"", "src", none⟩ (by decide) rfl (by decide)
  exact ⟨h.1, h.2.1 ⟨[], []⟩, h.2.2 ⟨[], []⟩⟩

end PlatformTools
